import Mathlib

/-!
Shallow embedding of the `winstonjson` log prettifier (src/main.rs).

The program reads a file line by line, tries to decode each line as a JSON
`LogLine` record (serde_json), formats decoded records (chrono local-time
rendering, centered level tag, optional source location, compact metadata)
with ANSI colors (the `colored` crate), and prints; lines that fail to
decode are printed verbatim.

Modelling conventions:
* JSON numbers are modelled as arbitrary-precision integers; the embedded
  parser covers integer literals (no fraction or exponent part, and no
  distinct negative zero).  Every claim below concerns either integer
  number fields or non-numeric behaviour, so this restriction is inert.
* The host environment enters as explicit parameters: the local UTC offset
  (seconds) of `chrono::Local`, the argument vector, and the file system as
  a function from path to optional line list.  ANSI colorization is
  modelled in its colors-enabled form (output to a terminal).
* Machine integers: the only bounded integer in the program is the `i32`
  `line` field; it is modelled as `Int` with the explicit range check that
  serde performs when deserializing an `i32` from a JSON integer.
-/

namespace WinstonJson

/-- JSON values as produced by `serde_json` (numbers restricted to
integers, see the module comment). Object members keep textual order and
duplicates, as the parser delivers them. -/
inductive Json where
  | null : Json
  | bool (b : Bool) : Json
  | num (n : Int) : Json
  | str (s : String) : Json
  | arr (elems : List Json) : Json
  | obj (members : List (String × Json)) : Json
deriving Repr

/-- JSON insignificant whitespace: space, tab, line feed, carriage return. -/
def isJsonWs (c : Char) : Bool :=
  c = ' ' || c = '\t' || c = '\n' || c = '\r'

/-- Drop leading JSON whitespace. -/
def skipWs : List Char → List Char
  | [] => []
  | c :: cs => if isJsonWs c then skipWs cs else c :: cs

/-- Value of a hexadecimal digit. -/
def hexVal (c : Char) : Option Nat :=
  if '0' ≤ c ∧ c ≤ '9' then some (c.toNat - 48)
  else if 'a' ≤ c ∧ c ≤ 'f' then some (c.toNat - 87)
  else if 'A' ≤ c ∧ c ≤ 'F' then some (c.toNat - 55)
  else none

/-- Value of four hexadecimal digits, as in a `\uXXXX` escape. -/
def hex4 (a b c d : Char) : Option Nat := do
  let x ← hexVal a
  let y ← hexVal b
  let z ← hexVal c
  let w ← hexVal d
  pure (((x * 16 + y) * 16 + z) * 16 + w)

/-- Body of a JSON string after the opening quote: ordinary characters
(controls below 0x20 are rejected), the short escapes, and `\uXXXX`
escapes with surrogate-pair handling, up to the closing quote.
Returns the decoded string and the unconsumed input. -/
def parseStringAux : List Char → List Char → Option (String × List Char)
  | acc, '"' :: rest => some (String.mk acc.reverse, rest)
  | acc, '\\' :: 'u' :: a :: b :: c :: d :: rest =>
    match hex4 a b c d with
    | none => none
    | some n =>
      if n < 0xD800 ∨ 0xDFFF < n then
        parseStringAux (Char.ofNat n :: acc) rest
      else if n ≤ 0xDBFF then
        match rest with
        | '\\' :: 'u' :: a2 :: b2 :: c2 :: d2 :: rest2 =>
          match hex4 a2 b2 c2 d2 with
          | none => none
          | some m =>
            if 0xDC00 ≤ m ∧ m ≤ 0xDFFF then
              parseStringAux
                (Char.ofNat (0x10000 + (n - 0xD800) * 1024 + (m - 0xDC00)) :: acc) rest2
            else none
        | _ => none
      else none
  | _, '\\' :: 'u' :: _ => none
  | acc, '\\' :: e :: rest =>
    if e = '"' then parseStringAux ('"' :: acc) rest
    else if e = '\\' then parseStringAux ('\\' :: acc) rest
    else if e = '/' then parseStringAux ('/' :: acc) rest
    else if e = 'b' then parseStringAux ('\x08' :: acc) rest
    else if e = 'f' then parseStringAux ('\x0c' :: acc) rest
    else if e = 'n' then parseStringAux ('\n' :: acc) rest
    else if e = 'r' then parseStringAux ('\r' :: acc) rest
    else if e = 't' then parseStringAux ('\t' :: acc) rest
    else none
  | _, ['\\'] => none
  | acc, c :: rest =>
    if c.toNat < 0x20 then none else parseStringAux (c :: acc) rest
  | _, [] => none

/-- Accumulate a run of decimal digits into an integer. -/
def digitsVal : List Char → Int → Int × List Char
  | [], acc => (acc, [])
  | c :: cs, acc =>
    if c.isDigit then digitsVal cs (acc * 10 + (c.toNat - 48 : Nat))
    else (acc, c :: cs)

/-- True when the next character would extend a number into a fraction or
exponent part (which the model does not cover, see the module comment). -/
def headFracExp : List Char → Bool
  | c :: _ => c = '.' || c = 'e' || c = 'E'
  | [] => false

/-- True when the next character is a decimal digit. -/
def headDigit : List Char → Bool
  | c :: _ => c.isDigit
  | [] => false

/-- Unsigned JSON integer literal: `0`, or a nonzero leading digit followed
by digits (JSON forbids redundant leading zeros). -/
def parseUIntLit : List Char → Option (Int × List Char)
  | '0' :: cs =>
    if headDigit cs ∨ headFracExp cs then none else some (0, cs)
  | c :: cs =>
    if c.isDigit then
      let p := digitsVal cs ((c.toNat - 48 : Nat) : Int)
      if headFracExp p.2 then none else some p
    else none
  | [] => none

/-- Optionally signed JSON integer literal. -/
def parseIntLit : List Char → Option (Int × List Char)
  | '-' :: cs => (parseUIntLit cs).map (fun p => (-p.1, p.2))
  | cs => parseUIntLit cs

mutual

/-- One JSON value. `fuel` bounds the recursion structurally (the caller
passes more fuel than the input length); `depth` is serde_json's remaining
recursion depth, 128 at the top: entering a container decrements it and
fails when it reaches zero, exactly serde's 128-deep nesting limit. -/
def parseValue : Nat → Nat → List Char → Option (Json × List Char)
  | 0, _, _ => none
  | fuel + 1, depth, cs =>
    match skipWs cs with
    | '\x7b' :: rest =>
      if depth - 1 = 0 then none
      else
        match skipWs rest with
        | '\x7d' :: rest2 => some (.obj [], rest2)
        | _ => parseMembers fuel (depth - 1) rest []
    | '[' :: rest =>
      if depth - 1 = 0 then none
      else
        match skipWs rest with
        | ']' :: rest2 => some (.arr [], rest2)
        | _ => parseElems fuel (depth - 1) rest []
    | '"' :: rest => (parseStringAux [] rest).map (fun p => (.str p.1, p.2))
    | 'n' :: 'u' :: 'l' :: 'l' :: rest => some (.null, rest)
    | 't' :: 'r' :: 'u' :: 'e' :: rest => some (.bool true, rest)
    | 'f' :: 'a' :: 'l' :: 's' :: 'e' :: rest => some (.bool false, rest)
    | other => (parseIntLit other).map (fun p => (.num p.1, p.2))

/-- Members of a nonempty JSON object, after the opening brace. -/
def parseMembers : Nat → Nat → List Char → List (String × Json) →
    Option (Json × List Char)
  | 0, _, _, _ => none
  | fuel + 1, depth, cs, acc =>
    match skipWs cs with
    | '"' :: rest =>
      match parseStringAux [] rest with
      | none => none
      | some (k, rest2) =>
        match skipWs rest2 with
        | ':' :: rest3 =>
          match parseValue fuel depth rest3 with
          | none => none
          | some (v, rest4) =>
            match skipWs rest4 with
            | ',' :: rest5 => parseMembers fuel depth rest5 ((k, v) :: acc)
            | '\x7d' :: rest5 => some (.obj ((k, v) :: acc).reverse, rest5)
            | _ => none
        | _ => none
    | _ => none

/-- Elements of a nonempty JSON array, after the opening bracket. -/
def parseElems : Nat → Nat → List Char → List Json → Option (Json × List Char)
  | 0, _, _, _ => none
  | fuel + 1, depth, cs, acc =>
    match parseValue fuel depth cs with
    | none => none
    | some (v, rest) =>
      match skipWs rest with
      | ',' :: rest2 => parseElems fuel depth rest2 (v :: acc)
      | ']' :: rest2 => some (.arr (v :: acc).reverse, rest2)
      | _ => none

end

/-- Parse a whole string as one JSON value, as `serde_json::from_str`
does: leading and trailing whitespace allowed, anything else after the
value is an error. -/
def parseTop (s : String) : Option Json :=
  match parseValue (2 * s.length + 2) 128 s.data with
  | some (v, rest) => if skipWs rest = [] then some v else none
  | none => none

/-- The decoded record shape (struct `LogLine` in src/main.rs): required
`level`, `message`, `timestamp`; optional `file`, `line` (an `i32` in the
source, hence the range check at decode time), `metadata`. -/
structure LogLine where
  level : String
  message : String
  timestamp : String
  file : Option String
  line : Option Int
  metadata : Option Json
deriving Repr

/-- Smallest `i32` value. -/
def i32Min : Int := -(2 ^ 31)

/-- Largest `i32` value. -/
def i32Max : Int := 2 ^ 31 - 1

/-- How many members of an object carry the key `k`. -/
def keyCount (kvs : List (String × Json)) (k : String) : Nat :=
  (kvs.filter (fun p => p.1 = k)).length

/-- Look a known field up in an object, as serde's generated `visit_map`
does: a second occurrence of the key is a `duplicate field` error
(`none`); otherwise `some none` when absent and `some (some v)` when
present. Unknown keys are skipped (serde's `IgnoredAny`). -/
def findField (kvs : List (String × Json)) (k : String) : Option (Option Json) :=
  if 2 ≤ keyCount kvs k then none
  else some ((kvs.find? (fun p => p.1 = k)).map Prod.snd)

/-- Deserialize a `String` field. -/
def decodeString : Json → Option String
  | .str s => some s
  | _ => none

/-- Deserialize an `Option<String>` field value: JSON `null` is `None`,
a string is `Some`, anything else is a type error. -/
def decodeOptionString : Json → Option (Option String)
  | .null => some none
  | .str s => some (some s)
  | _ => none

/-- Deserialize an `i32` field value: serde_json range-checks the integer
against the `i32` bounds and errors when it does not fit. -/
def decodeI32 : Json → Option Int
  | .num n => if i32Min ≤ n ∧ n ≤ i32Max then some n else none
  | _ => none

/-- Deserialize an `Option<i32>` field value. -/
def decodeOptionI32 : Json → Option (Option Int)
  | .null => some none
  | v => (decodeI32 v).map some

/-- Deserialize an `Option<Value>` field value: `null` is `None`, any
other JSON value is kept verbatim. -/
def decodeOptionValue : Json → Option (Option Json)
  | .null => some none
  | v => some (some v)

/-- Decode a required struct field from an object: absent, duplicate, or
ill-typed is an error. -/
def mapReq {α : Type} (kvs : List (String × Json)) (k : String)
    (dec : Json → Option α) : Option α :=
  match findField kvs k with
  | some (some v) => dec v
  | _ => none

/-- Decode an optional struct field from an object: absent yields `none`
(the Rust `None`), duplicate or ill-typed is an error. -/
def mapOpt {α : Type} (kvs : List (String × Json)) (k : String)
    (dec : Json → Option (Option α)) : Option (Option α) :=
  match findField kvs k with
  | none => none
  | some none => some none
  | some (some v) => dec v

/-- serde's derived `Deserialize` for `LogLine`: a JSON object is read
through `visit_map` (field by key, unknown keys ignored, duplicates and
type mismatches fatal, missing required field fatal); a JSON array is
read through `visit_seq` (all six fields positional, length must match);
every other JSON value is a type error. -/
def logLineFromJson : Json → Option LogLine
  | .obj kvs => do
    let level ← mapReq kvs ("level") decodeString
    let message ← mapReq kvs ("message") decodeString
    let timestamp ← mapReq kvs ("timestamp") decodeString
    let file ← mapOpt kvs ("file") decodeOptionString
    let line ← mapOpt kvs ("line") decodeOptionI32
    let metadata ← mapOpt kvs ("metadata") decodeOptionValue
    pure ⟨level, message, timestamp, file, line, metadata⟩
  | .arr [l, m, t, f, li, md] => do
    let level ← decodeString l
    let message ← decodeString m
    let timestamp ← decodeString t
    let file ← decodeOptionString f
    let line ← decodeOptionI32 li
    let metadata ← decodeOptionValue md
    pure ⟨level, message, timestamp, file, line, metadata⟩
  | _ => none

/-- The full decode path `serde_json::from_str::<LogLine>`: parse the
line as JSON, then deserialize the record. -/
def from_str (s : String) : Option LogLine :=
  (parseTop s).bind logLineFromJson

/-- Lowercase hexadecimal digit, as serde_json's escape table uses. -/
def hexDigit (n : Nat) : String :=
  String.singleton (if n < 10 then Char.ofNat (48 + n) else Char.ofNat (87 + n))

/-- serde_json's string-character escaping: quote, backslash, the short
control escapes, and `\u00XX` for the remaining control characters. -/
def escapeChar (c : Char) : String :=
  if c = '"' then "\\\""
  else if c = '\\' then "\\\\"
  else if c = '\x08' then "\\b"
  else if c = '\x0c' then "\\f"
  else if c = '\n' then "\\n"
  else if c = '\r' then "\\r"
  else if c = '\t' then "\\t"
  else if c.toNat < 0x20 then "\\u00" ++ hexDigit (c.toNat / 16) ++ hexDigit (c.toNat % 16)
  else String.singleton c

mutual

/-- Compact serialization `serde_json::to_string` of a JSON value
(member order preserved). -/
def jsonToString : Json → String
  | .null => "null"
  | .bool true => "true"
  | .bool false => "false"
  | .num n => toString n
  | .str s => "\"" ++ String.join (s.data.map escapeChar) ++ "\""
  | .arr xs => "[" ++ jsonElemsToString xs ++ "]"
  | .obj kvs => "\x7b" ++ jsonMembersToString kvs ++ "\x7d"

/-- Comma-separated serialization of array elements. -/
def jsonElemsToString : List Json → String
  | [] => ""
  | [x] => jsonToString x
  | x :: y :: xs => jsonToString x ++ "," ++ jsonElemsToString (y :: xs)

/-- Comma-separated serialization of object members. -/
def jsonMembersToString : List (String × Json) → String
  | [] => ""
  | [(k, v)] => "\"" ++ String.join (k.data.map escapeChar) ++ "\":" ++ jsonToString v
  | (k, v) :: m :: kvs =>
    "\"" ++ String.join (k.data.map escapeChar) ++ "\":" ++ jsonToString v ++ "," ++
      jsonMembersToString (m :: kvs)

end

/-- `metadata_to_string` from src/main.rs: absent metadata renders as the
empty string; present metadata is serialized compactly.  (In the model the
serializer is total; `serde_json::to_string` on an already-decoded `Value`
never fails, which is the source's "if let Ok" arm.) -/
def metadata_to_string : Option Json → String
  | some meta => jsonToString meta
  | none => ""

/-- The display colors the program uses (`colored::Color`). -/
inductive Color where
  | green : Color
  | yellow : Color
  | red : Color
  | cyan : Color
  | magenta : Color
  | blue : Color
deriving Repr, DecidableEq

/-- ANSI foreground code of a color, as the `colored` crate emits. -/
def fgCode : Color → String
  | .green => "32"
  | .yellow => "33"
  | .red => "31"
  | .cyan => "36"
  | .magenta => "35"
  | .blue => "34"

/-- Wrap a string in the ANSI escape sequence for a foreground color
(the `colored` crate with colors enabled, i.e. terminal output). -/
def colorize (c : Color) (s : String) : String :=
  "\x1b[" ++ fgCode c ++ "m" ++ s ++ "\x1b[0m"

/-- `get_color` from src/main.rs: the exact, case-sensitive severity
vocabulary. -/
def get_color (level : String) : Option Color :=
  if level = "info" then some .green
  else if level = "warn" then some .yellow
  else if level = "error" then some .red
  else if level = "debug" then some .cyan
  else none

/-- A run of `n` spaces. -/
def spaces (n : Nat) : String :=
  String.mk (List.replicate n ' ')

/-- Rust's `{:^5}` center padding: width counted in characters, shorter
content gets `pad/2` spaces on the left and the rest on the right,
content of five or more characters is left intact. -/
def centerPad5 (s : String) : String :=
  if 5 ≤ s.length then s
  else spaces ((5 - s.length) / 2) ++ s ++ spaces (5 - s.length - (5 - s.length) / 2)

/-- An offset-aware civil date-time, the result of chrono's RFC3339
parsing: date and time-of-day fields, sub-second nanoseconds, and the UTC
offset in seconds carried by the text. -/
structure DateTimeFix where
  year : Int
  month : Nat
  day : Nat
  hour : Nat
  minute : Nat
  second : Nat
  nano : Nat
  offsetSec : Int
deriving Repr, DecidableEq

/-- Value of a decimal digit character. -/
def digitVal (c : Char) : Option Nat :=
  if c.isDigit then some (c.toNat - 48) else none

/-- Two decimal digits. -/
def read2 (a b : Char) : Option Nat := do
  pure ((← digitVal a) * 10 + (← digitVal b))

/-- Four decimal digits. -/
def read4 (a b c d : Char) : Option Nat := do
  pure (((← digitVal a) * 10 + (← digitVal b)) * 100 +
    ((← digitVal c) * 10 + (← digitVal d)))

/-- Gregorian leap year. -/
def isLeapYear (y : Int) : Bool :=
  y % 4 = 0 ∧ (y % 100 ≠ 0 ∨ y % 400 = 0)

/-- Days in a month of a given year. -/
def daysInMonth (y : Int) (m : Nat) : Nat :=
  if m = 2 then (if isLeapYear y then 29 else 28)
  else if m = 4 ∨ m = 6 ∨ m = 9 ∨ m = 11 then 30
  else 31

/-- Fractional-second digits after the dot: the first nine significant
digits become nanoseconds, further digits are consumed and ignored
(chrono's `scan::nanosecond`). -/
def parseFracAux : List Char → Nat → Nat → Nat × List Char
  | [], acc, taken => (acc * 10 ^ (9 - taken), [])
  | c :: cs, acc, taken =>
    if c.isDigit then
      if taken < 9 then parseFracAux cs (acc * 10 + (c.toNat - 48)) (taken + 1)
      else parseFracAux cs acc taken
    else (acc * 10 ^ (9 - taken), c :: cs)

/-- A timezone offset suffix: `Z`/`z`, or `±HH:MM` with minutes below 60
and total magnitude below one day (chrono's `FixedOffset` bounds). -/
def parseOffset : List Char → Option (Int × List Char)
  | 'Z' :: rest => some (0, rest)
  | 'z' :: rest => some (0, rest)
  | '+' :: h1 :: h2 :: ':' :: m1 :: m2 :: rest => do
    let h ← read2 h1 h2
    let m ← read2 m1 m2
    if m ≤ 59 ∧ h * 3600 + m * 60 < 86400 then pure ((h * 3600 + m * 60 : Nat), rest)
    else none
  | '-' :: h1 :: h2 :: ':' :: m1 :: m2 :: rest => do
    let h ← read2 h1 h2
    let m ← read2 m1 m2
    if m ≤ 59 ∧ h * 3600 + m * 60 < 86400 then pure (-(h * 3600 + m * 60 : Nat), rest)
    else none
  | _ => none

/-- `chrono::DateTime::parse_from_rfc3339`: `YYYY-MM-DD` then a `T`, `t`
or space separator, `HH:MM:SS`, optional `.digits` fraction, and a
mandatory offset, consuming the whole string, with calendar and clock
range validation.  (Model restriction: the leap-second reading `:60`,
which chrono stores as an overflowing nanosecond count, is rejected; no
claim involves leap seconds.) -/
def parse_from_rfc3339 (s : String) : Option DateTimeFix :=
  match s.data with
  | y1 :: y2 :: y3 :: y4 :: '-' :: mo1 :: mo2 :: '-' :: d1 :: d2 :: sep ::
      h1 :: h2 :: ':' :: mi1 :: mi2 :: ':' :: s1 :: s2 :: rest => do
    let y ← read4 y1 y2 y3 y4
    let mo ← read2 mo1 mo2
    let d ← read2 d1 d2
    let h ← read2 h1 h2
    let mi ← read2 mi1 mi2
    let sec ← read2 s1 s2
    if sep = 'T' ∨ sep = 't' ∨ sep = ' ' then
      let fr : Nat × List Char ←
        match rest with
        | '.' :: c :: cs =>
          if c.isDigit then some (parseFracAux (c :: cs) 0 0) else none
        | other => some (0, other)
      let off ← parseOffset fr.2
      if off.2 = [] ∧ 1 ≤ mo ∧ mo ≤ 12 ∧ 1 ≤ d ∧ d ≤ daysInMonth y mo ∧
          h ≤ 23 ∧ mi ≤ 59 ∧ sec ≤ 59 then
        pure ⟨y, mo, d, h, mi, sec, fr.1, off.1⟩
      else none
    else none
  | _ => none

/-- Days since 1970-01-01 of a civil date (Howard Hinnant's
`days_from_civil`; `Int` division here truncates toward zero exactly as
the reference algorithm expects). -/
def daysFromCivil (y : Int) (m : Nat) (d : Nat) : Int :=
  let yAdj : Int := if m ≤ 2 then y - 1 else y
  let era : Int := (if 0 ≤ yAdj then yAdj else yAdj - 399) / 400
  let yoe : Int := yAdj - era * 400
  let mp : Int := ((m : Int) + 9) % 12
  let doy : Int := (153 * mp + 2) / 5 + (d : Int) - 1
  let doe : Int := yoe * 365 + yoe / 4 - yoe / 100 + doy
  era * 146097 + doe - 719468

/-- Civil date of a days-since-epoch count (Hinnant's `civil_from_days`). -/
def civilFromDays (z0 : Int) : Int × Nat × Nat :=
  let z : Int := z0 + 719468
  let era : Int := (if 0 ≤ z then z else z - 146096) / 146097
  let doe : Int := z - era * 146097
  let yoe : Int := (doe - doe / 1460 + doe / 36524 - doe / 146096) / 365
  let y : Int := yoe + era * 400
  let doy : Int := doe - (365 * yoe + yoe / 4 - yoe / 100)
  let mp : Int := (5 * doy + 2) / 153
  let d : Int := doy - (153 * mp + 2) / 5 + 1
  let m : Int := if mp < 10 then mp + 3 else mp - 9
  (if m ≤ 2 then y + 1 else y, m.toNat, d.toNat)

/-- Seconds since the Unix epoch of an offset-carrying civil date-time. -/
def epochSec (t : DateTimeFix) : Int :=
  daysFromCivil t.year t.month t.day * 86400 +
    (t.hour : Int) * 3600 + (t.minute : Int) * 60 + (t.second : Int) - t.offsetSec

/-- Two-digit zero-padded decimal. -/
def pad2 (n : Nat) : String :=
  if n < 10 then "0" ++ toString n else toString n

/-- Three-digit zero-padded decimal. -/
def pad3 (n : Nat) : String :=
  if n < 10 then "00" ++ toString n
  else if n < 100 then "0" ++ toString n
  else toString n

/-- Four-digit zero-padded year (negative years keep a leading sign). -/
def pad4 (y : Int) : String :=
  if y < 0 then "-" ++ pad4Nat y.natAbs else pad4Nat y.toNat
where
  /-- Zero-pad a natural number to four digits. -/
  pad4Nat (n : Nat) : String :=
    if n < 10 then "000" ++ toString n
    else if n < 100 then "00" ++ toString n
    else if n < 1000 then "0" ++ toString n
    else toString n

/-- Render the instant of `t`, shifted into the local offset
`localOffsetSec`, as `to_rfc3339_opts(SecondsFormat::Millis, true)` does:
milliseconds truncated from the nanoseconds, and a `Z` suffix exactly
when the local offset is zero, `±HH:MM` otherwise. -/
def formatLocalMillis (localOffsetSec : Int) (t : DateTimeFix) : String :=
  let sec : Int := epochSec t + localOffsetSec
  let days : Int := sec / 86400 - (if sec % 86400 < 0 then 1 else 0)
  let sod : Int := sec - days * 86400
  let ymd := civilFromDays days
  let millis : Nat := t.nano / 1000000
  let offAbs : Nat := localOffsetSec.natAbs
  let offStr : String :=
    if localOffsetSec = 0 then "Z"
    else (if localOffsetSec < 0 then "-" else "+") ++
      pad2 (offAbs / 3600) ++ ":" ++ pad2 (offAbs % 3600 / 60)
  pad4 ymd.1 ++ "-" ++ pad2 ymd.2.1 ++ "-" ++ pad2 ymd.2.2 ++ "T" ++
    pad2 (sod / 3600).toNat ++ ":" ++ pad2 ((sod % 3600) / 60).toNat ++ ":" ++
    pad2 (sod % 60).toNat ++ "." ++ pad3 millis ++ offStr

/-- `to_local_time` from src/main.rs: parse the timestamp as RFC3339 and
rerender it in the local offset at millisecond precision; on parse
failure return the original text unchanged. -/
def to_local_time (localOffsetSec : Int) (timestamp : String) : String :=
  match parse_from_rfc3339 timestamp with
  | some t => formatLocalMillis localOffsetSec t
  | none => timestamp

/-- `impl Display for LogLine` from src/main.rs: magenta local time, the
level centered in five columns, the blue `file:line` pair only when both
are present, the message, a space, and the metadata rendering. -/
def logLineToString (localOffsetSec : Int) (v : LogLine) : String :=
  let meta := metadata_to_string v.metadata
  let time := to_local_time localOffsetSec v.timestamp
  if v.file.isNone || v.line.isNone then
    colorize .magenta time ++ "|" ++ centerPad5 v.level ++ ": " ++ v.message ++ " " ++ meta
  else
    colorize .magenta time ++ "|" ++ centerPad5 v.level ++ "|" ++
      colorize .blue v.file.get! ++ ":" ++ colorize .blue (toString v.line.get!) ++ ": " ++
      v.message ++ " " ++ meta

/-- The per-line body of `main`'s loop: a line that decodes is formatted
and, when the severity is recognized, wrapped in that color; a line that
fails to decode is printed verbatim. -/
def processLine (localOffsetSec : Int) (line : String) : String :=
  match from_str line with
  | some v =>
    match get_color v.level with
    | some c => colorize c (logLineToString localOffsetSec v)
    | none => logLineToString localOffsetSec v
  | none => line

/-- The whole of `main`, over an explicit environment: `argv` is the full
argument vector (`env::args()`, program name at index 0) and `fs` maps a
path to `none` when the file cannot be opened, or to its raw line reads
(`none` entries are `io::Result` errors, e.g. invalid encoding, which
`flatten` silently drops).  The result is the pair (stdout lines, stderr
lines). -/
def runMain (localOffsetSec : Int) (argv : List String)
    (fs : String → Option (List (Option String))) : List String × List String :=
  match argv[1]? with
  | none => ([], ["No input."])
  | some filename =>
    match fs filename with
    | none => ([], [])
    | some rawLines =>
      ((rawLines.filterMap id).map (processLine localOffsetSec), [])

/-- Claim C1: every input line that fails to decode as a `LogRecord`
(malformed syntax, wrong field types, or a missing required field) is
printed as the original line text unchanged, byte for byte, with no color
and no reformatting, and no error is surfaced. -/
theorem c1_decode_failure_is_verbatim_passthrough (localOffsetSec : Int) (s : String)
    (h : from_str s = none) : processLine localOffsetSec s = s := by
  unfold processLine
  rw [h]

theorem c1_decode_failure_is_verbatim_passthrough_witness :
    from_str ("not json at all") = none ∧
      processLine 0 ("not json at all") = "not json at all" :=
  ⟨rfl, c1_decode_failure_is_verbatim_passthrough 0 ("not json at all") rfl⟩

/-- Claim C3: the severity colorizer compares the level case-sensitively
against the exact fixed vocabulary — green for `info`, yellow for `warn`,
red for `error`, cyan for `debug` — and yields no color for every other
value, different casings such as `INFO` included. -/
theorem c3_severity_color_table :
    get_color ("info") = some Color.green ∧
    get_color ("warn") = some Color.yellow ∧
    get_color ("error") = some Color.red ∧
    get_color ("debug") = some Color.cyan ∧
    ∀ s : String, s ≠ "info" → s ≠ "warn" → s ≠ "error" → s ≠ "debug" →
      get_color s = none := by
  refine ⟨rfl, rfl, rfl, rfl, fun s h1 h2 h3 h4 => ?_⟩
  unfold get_color
  rw [if_neg h1, if_neg h2, if_neg h3, if_neg h4]

theorem c3_severity_color_table_witness : get_color ("INFO") = none :=
  c3_severity_color_table.2.2.2.2 ("INFO") (by decide) (by decide) (by decide) (by decide)

/-- Claim C4: a timestamp that does not parse as an offset-aware RFC3339
date-time is returned by the normalizer verbatim — parse failure is not
an error path, and the displayed time is the original string. -/
theorem c4_unparsable_timestamp_verbatim (localOffsetSec : Int) (ts : String)
    (h : parse_from_rfc3339 ts = none) : to_local_time localOffsetSec ts = ts := by
  unfold to_local_time
  rw [h]

theorem c4_unparsable_timestamp_verbatim_witness :
    parse_from_rfc3339 ("yesterday") = none ∧
      to_local_time 0 ("yesterday") = "yesterday" :=
  ⟨rfl, c4_unparsable_timestamp_verbatim 0 ("yesterday") rfl⟩

/-- Claim C6: with no command-line argument the program prints the
diagnostic `No input.` to the error stream, performs no further work
(nothing on standard output, no file read), and returns normally. -/
theorem c6_no_argument_prints_diagnostic (localOffsetSec : Int) (argv : List String)
    (fs : String → Option (List (Option String))) (h : argv[1]? = none) :
    runMain localOffsetSec argv fs = ([], ["No input."]) := by
  unfold runMain
  rw [h]

theorem c6_no_argument_prints_diagnostic_witness :
    runMain 0 ["winstonjson"] (fun _ => none) = ([], ["No input."]) :=
  c6_no_argument_prints_diagnostic 0 ["winstonjson"] (fun _ => none) rfl

/-- Claim C7: when the named file cannot be opened the program exits
normally with no standard output and no diagnostic on the error
stream. -/
theorem c7_unopenable_file_silent (localOffsetSec : Int) (argv : List String)
    (filename : String) (fs : String → Option (List (Option String)))
    (h1 : argv[1]? = some filename) (h2 : fs filename = none) :
    runMain localOffsetSec argv fs = ([], []) := by
  simp only [runMain, h1, h2]

theorem c7_unopenable_file_silent_witness :
    runMain 0 ["winstonjson", "missing.log"] (fun _ => none) = ([], []) :=
  c7_unopenable_file_silent 0 ["winstonjson", "missing.log"] ("missing.log")
    (fun _ => none) rfl rfl

/-- Claim C5: for every processed file, the output has exactly one line
per input line (after the line source's silent drops of unreadable
lines), output order mirrors input order, and no line — malformed or not
— stops processing or produces an error. -/
theorem c5_line_count_and_order (localOffsetSec : Int) (argv : List String)
    (filename : String) (fs : String → Option (List (Option String)))
    (raw : List (Option String))
    (h1 : argv[1]? = some filename) (h2 : fs filename = some raw) :
    (runMain localOffsetSec argv fs).1 =
        (raw.filterMap id).map (processLine localOffsetSec) ∧
      (runMain localOffsetSec argv fs).1.length = (raw.filterMap id).length ∧
      (runMain localOffsetSec argv fs).2 = [] := by
  simp [runMain, h1, h2]

theorem c5_line_count_and_order_witness :
    (runMain 0 ["winstonjson", "log.txt"]
        (fun p => if p = "log.txt" then
            some [some ("\x7bbad"), none, some ("also bad")] else none)).1 =
      ([some ("\x7bbad"), none, some ("also bad")].filterMap id).map (processLine 0) :=
  (c5_line_count_and_order 0 ["winstonjson", "log.txt"] ("log.txt")
      (fun p => if p = "log.txt" then
        some [some ("\x7bbad"), none, some ("also bad")] else none)
      [some ("\x7bbad"), none, some ("also bad")] rfl rfl).1

/-- Claim C8: the metadata renderer yields the empty string when metadata
is absent and a compact serialization when present (serialization of an
already-decoded value is total, so the `if let Ok` fallback to the empty
string never fires), and the formatter emits the space delimiter before
the metadata slot in every case, with no field omission logic. -/
theorem c8_metadata_rendering (localOffsetSec : Int) :
    metadata_to_string none = "" ∧
      (∀ j : Json, metadata_to_string (some j) = jsonToString j) ∧
      ∀ v : LogLine, ∃ p : String,
        logLineToString localOffsetSec v = p ++ " " ++ metadata_to_string v.metadata := by
  refine ⟨rfl, fun j => rfl, fun v => ?_⟩
  unfold logLineToString
  dsimp only
  split
  · exact ⟨_, rfl⟩
  · exact ⟨_, rfl⟩

/-- Claim C2: a decoded record is rendered with the source-info layout
`<time>|<level centered in 5>|<file>:<line>: <message> <metadata>`
exactly when both `file` and `line` are present, and with the layout
`<time>|<level centered in 5>: <message> <metadata>` when either is
absent, whether or not the other is present. -/
theorem c2_two_layouts (localOffsetSec : Int) (v : LogLine) :
    (v.file = none ∨ v.line = none →
      logLineToString localOffsetSec v =
        colorize Color.magenta (to_local_time localOffsetSec v.timestamp) ++ "|" ++
          centerPad5 v.level ++ ": " ++ v.message ++ " " ++
          metadata_to_string v.metadata) ∧
    ∀ f l, v.file = some f → v.line = some l →
      logLineToString localOffsetSec v =
        colorize Color.magenta (to_local_time localOffsetSec v.timestamp) ++ "|" ++
          centerPad5 v.level ++ "|" ++ colorize Color.blue f ++ ":" ++
          colorize Color.blue (toString l) ++ ": " ++ v.message ++ " " ++
          metadata_to_string v.metadata := by
  constructor
  · intro h
    have hb : (v.file.isNone || v.line.isNone) = true := by
      rcases h with h | h <;> simp [h]
    unfold logLineToString
    rw [hb]
    simp
  · intro f l hf hl
    have hb : (v.file.isNone || v.line.isNone) = false := by
      simp [hf, hl]
    unfold logLineToString
    rw [hb]
    simp [hf, hl]

theorem c2_two_layouts_witness :
    logLineToString 0 ⟨"info", "m", "ts", some ("f.rs"), none, none⟩ =
      colorize Color.magenta (to_local_time 0 ("ts")) ++ "|" ++
        centerPad5 ("info") ++ ": " ++ "m" ++ " " ++ metadata_to_string none :=
  (c2_two_layouts 0 ⟨"info", "m", "ts", some ("f.rs"), none, none⟩).1 (Or.inr rfl)

/-- Claim C9, counterexample: the claimed text
`<local-time>| error: boom ` (a space between the pipe and `error`) is
not what the program prints for the example line — `error` is exactly
five characters, so `\x7b:^5\x7d` adds no padding and the pipe abuts the
label. -/
theorem c9_example_line_counterexample :
    processLine 0
        ("\x7b\"level\":\"error\",\"message\":\"boom\",\"timestamp\":\"2024-01-01T00:00:00Z\"\x7d") ≠
      colorize Color.red (colorize Color.magenta
        (to_local_time 0 ("2024-01-01T00:00:00Z")) ++ "| error: boom ") := by
  decide

/-- Claim C9, amended: for the input line
`\x7b"level":"error","message":"boom","timestamp":"2024-01-01T00:00:00Z"\x7d`
the program outputs a red-colored line whose text is
`<local-time>|error: boom ` — no space after the pipe, since the level
label `error` is exactly five characters and is center-padded to width
five (labels of five or more characters stay intact and untruncated), no
metadata, no source info. -/
theorem c9_example_line_amended (localOffsetSec : Int) :
    processLine localOffsetSec
        ("\x7b\"level\":\"error\",\"message\":\"boom\",\"timestamp\":\"2024-01-01T00:00:00Z\"\x7d") =
      colorize Color.red (colorize Color.magenta
        (to_local_time localOffsetSec ("2024-01-01T00:00:00Z")) ++ "|error: boom ") := by
  show colorize Color.red (logLineToString localOffsetSec
    ⟨"error", "boom", "2024-01-01T00:00:00Z", none, none, none⟩) = _
  unfold logLineToString
  simp only [String.append_assoc]
  rfl

/-- Claim C10: a line of well-formed JSON whose `line` field is an
integer outside the signed 32-bit range fails to decode (serde's `i32`
range check), so the line is printed unchanged as raw passthrough. -/
theorem c10_line_field_out_of_i32_range (localOffsetSec : Int) (s : String)
    (kvs : List (String × Json)) (n : Int)
    (hp : parseTop s = some (Json.obj kvs))
    (hl : findField kvs ("line") = some (some (Json.num n)))
    (hn : n < i32Min ∨ i32Max < n) :
    from_str s = none ∧ processLine localOffsetSec s = s := by
  have hline : mapOpt kvs ("line") decodeOptionI32 = none := by
    unfold mapOpt
    rw [hl]
    show Option.map some (if i32Min ≤ n ∧ n ≤ i32Max then some n else none) = none
    rw [if_neg]
    · rfl
    · rintro ⟨hlo, hhi⟩
      rcases hn with hn | hn <;> omega
  have hdec : logLineFromJson (Json.obj kvs) = none := by
    unfold logLineFromJson
    cases hA : mapReq kvs ("level") decodeString <;>
      cases hB : mapReq kvs ("message") decodeString <;>
        cases hC : mapReq kvs ("timestamp") decodeString <;>
          cases hD : mapOpt kvs ("file") decodeOptionString <;>
            simp [hA, hB, hC, hD, hline]
  have h : from_str s = none := by
    unfold from_str
    rw [hp]
    simpa using hdec
  refine ⟨h, ?_⟩
  unfold processLine
  rw [h]

theorem c10_line_field_out_of_i32_range_witness :
    from_str ("\x7b\"level\":\"a\",\"message\":\"b\",\"timestamp\":\"c\",\"line\":2147483648\x7d") = none ∧
      processLine 0 ("\x7b\"level\":\"a\",\"message\":\"b\",\"timestamp\":\"c\",\"line\":2147483648\x7d") =
        "\x7b\"level\":\"a\",\"message\":\"b\",\"timestamp\":\"c\",\"line\":2147483648\x7d" :=
  c10_line_field_out_of_i32_range 0
    ("\x7b\"level\":\"a\",\"message\":\"b\",\"timestamp\":\"c\",\"line\":2147483648\x7d")
    [("level", Json.str "a"), ("message", Json.str "b"), ("timestamp", Json.str "c"),
      ("line", Json.num 2147483648)] 2147483648 rfl rfl (by decide)

end WinstonJson
